import Mathlib

/-!
# MRPT scan-matching benchmark helpers and the DifOdometry-Camera launcher

Shallow embedding of

* `apps/mrpt-performance/perf-scan_matching.h`
  (`generate_points`, `generate_list_of_points`, `generate_vector_of_points`,
  `register_tests_scan_matching`), and
* `apps/DifOdometry-Camera/DifOdometry_Camera_main.cpp` (`main`, `default_cfg_txt`).

Conventions.

* A `std::vector<T>` is a `List T`; indexing out of bounds is undefined behaviour in the
  source and is `none` here, so every function that indexes returns an `Option`.
* The two adapters only copy coordinates, so their scalar type is a parameter `α`.
* `generate_points` computes with `double`; here it computes in a field `K` whose cosine,
  sine and `π` are given by a `Trig K`, and decimal constants are exact.  The statements
  about it take `K = ℝ` with the real cosine and sine, so rounding is not modelled.
* `main` is modelled by the trace of its effects on the outside world, up to the point where
  the interactive "Main operation" starts.  `argv` is the list of the `num_arg` argument
  strings; `argv[k]` with `k >= num_arg` is not a string.  The file system is the
  parameter `canOpen`, which tells whether a file of a given name can be opened for writing.
-/

namespace ScanMatching

/-! ## Data model of `perf-scan_matching.h` -/

/-- The source has `typedef std::vector< std::vector< double > > TPoints;`. -/
abbrev TPoints (α : Type) := List (List α)

/-- The expression `p[i][k]` of the source. -/
def rd {α : Type} (p : TPoints α) (i k : Nat) : Option α :=
  (p[i]?).bind (fun row => row[k]?)

/-- The statement `v[k] = x;` of the source on a `vector_double`. -/
def wr {α : Type} (v : List α) (k : Nat) (x : α) : Option (List α) :=
  if k < v.length then some (v.set k x) else none

/-- The call `v.resize(n)`: the first `n` entries are kept, missing ones are filled with `z`. -/
def resize {α : Type} (v : List α) (n : Nat) (z : α) : List α :=
  v.take n ++ List.replicate (n - v.length) z

/-- The fields of `TMatchingPair` that `generate_list_of_points` assigns.  The struct is
declared outside the translated sources; `β` is the type of its coordinate fields. -/
structure TMatchingPair (β : Type) where
  this_idx : Nat
  other_idx : Nat
  this_x : β
  this_y : β
  this_z : β
  other_x : β
  other_y : β
  other_z : β
deriving DecidableEq, Repr

/-- One round of the loop of `generate_list_of_points`.  `conv` is the implicit conversion
performed by the assignments `pair.this_x = pA[i][0]`, etc.  All eight fields are assigned
before each `push_back`, so the pair carried between rounds does not matter. -/
def generate_list_of_points_body {α β : Type} (conv : α → β) (pA pB : TPoints α)
    (list : List (TMatchingPair β)) (i : Nat) : Option (List (TMatchingPair β)) := do
  let ax ← rd pA i 0
  let ay ← rd pA i 1
  let az ← rd pA i 2
  let bx ← rd pB i 0
  let lby ← rd pB i 1
  let bz ← rd pB i 2
  pure (list ++ [{ this_idx := i, other_idx := i,
                   this_x := conv ax, this_y := conv ay, this_z := conv az,
                   other_x := conv bx, other_y := conv lby, other_z := conv bz }])

/-- The function `generate_list_of_points( pA, pB, list )`: `for( i = 0; i < 5; ++i )`. -/
def generate_list_of_points {α β : Type} (conv : α → β) (pA pB : TPoints α)
    (list : List (TMatchingPair β)) : Option (List (TMatchingPair β)) :=
  (List.range 5).foldlM (generate_list_of_points_body conv pA pB) list

/-- One round of the loop of `generate_vector_of_points`. -/
def generate_vector_of_points_body {α : Type} (pA pB : TPoints α)
    (inV : List α) (i : Nat) : Option (List α) := do
  let ax ← rd pA i 0
  let inV ← wr inV (6*i+0) ax
  let ay ← rd pA i 1
  let inV ← wr inV (6*i+1) ay
  let az ← rd pA i 2
  let inV ← wr inV (6*i+2) az
  let bx ← rd pB i 0
  let inV ← wr inV (6*i+3) bx
  let lby ← rd pB i 1
  let inV ← wr inV (6*i+4) lby
  let bz ← rd pB i 2
  wr inV (6*i+5) bz

/-- The function `generate_vector_of_points( pA, pB, inV )`: `inV.resize( 30 )` followed by
`for( i = 0; i < 5; ++i )`.  `z` is the value `resize` pads with. -/
def generate_vector_of_points {α : Type} (z : α) (pA pB : TPoints α)
    (inV : List α) : Option (List α) :=
  (List.range 5).foldlM (generate_vector_of_points_body pA pB) (resize inV 30 z)

/-- A point set holding at least five points, each of at least three coordinates. -/
def FivePoints {α : Type} (p : TPoints α) : Prop :=
  5 ≤ p.length ∧ ∀ i, i < 5 → ∀ row, p[i]? = some row → 3 ≤ row.length

/-! ## Poses and `generate_points` -/

/-- The trigonometric functions and the constant `M_PI` of the scalar type. -/
structure Trig (K : Type) where
  cos : K → K
  sin : K → K
  pi : K

/-- Modelled from the spec: the macro `DEG2RAD`, declared outside the translated sources;
the spec reads `DEG2RAD(10)` as "yaw=10°", that is `10·π/180` radians. -/
def DEG2RAD {K : Type} [Field K] (T : Trig K) (d : K) : K := d * T.pi / 180

/-- The six constructor arguments of `CPose3D( x, y, z, yaw, pitch, roll )`. -/
structure CPose3D (K : Type) where
  x : K
  y : K
  z : K
  yaw : K
  pitch : K
  roll : K

/-- A 3×3 matrix, row by row. -/
structure Mat3 (K : Type) where
  r11 : K
  r12 : K
  r13 : K
  r21 : K
  r22 : K
  r23 : K
  r31 : K
  r32 : K
  r33 : K

/-- Modelled from the spec: the rotation of a pose, "that yaw/pitch/roll composition", which
the classes `CPose3D` and `CPose3DQuat` (outside the translated sources) compute: yaw about
the z axis, pitch about the y axis and roll about the x axis, `R = Rz(yaw)·Ry(pitch)·Rx(roll)`. -/
def CPose3D.rotation {K : Type} [Field K] (T : Trig K) (p : CPose3D K) : Mat3 K :=
  let cy := T.cos p.yaw
  let sy := T.sin p.yaw
  let cp := T.cos p.pitch
  let sp := T.sin p.pitch
  let cr := T.cos p.roll
  let sr := T.sin p.roll
  { r11 := cy*cp, r12 := cy*sp*sr - sy*cr, r13 := cy*sp*cr + sy*sr,
    r21 := sy*cp, r22 := sy*sp*sr + cy*cr, r23 := sy*sp*cr - cy*sr,
    r31 := -sp,   r32 := cp*sr,            r33 := cp*cr }

/-- Modelled from the spec: the A→B direction of the spec, `p_B = scale · R·p_A + t` with
scale 1: the point `R·(lx,ly,lz) + t`. -/
def composePoint {K : Type} [Field K] (T : Trig K) (p : CPose3D K) (lx ly lz : K) : K × K × K :=
  let R := p.rotation T
  (R.r11*lx + R.r12*ly + R.r13*lz + p.x,
   R.r21*lx + R.r22*ly + R.r23*lz + p.y,
   R.r31*lx + R.r32*ly + R.r33*lz + p.z)

/-- Modelled from the spec: the method `CPose3DQuat::inverseComposePoint`, outside the
translated sources: the "inverse-compose" of the spec, the "standard rigid-transform
inversion" `Rᵀ·((gx,gy,gz) − t)`. -/
def inverseComposePoint {K : Type} [Field K] (T : Trig K) (p : CPose3D K) (gx gy gz : K) :
    K × K × K :=
  let R := p.rotation T
  (R.r11*(gx - p.x) + R.r21*(gy - p.y) + R.r31*(gz - p.z),
   R.r12*(gx - p.x) + R.r22*(gy - p.y) + R.r32*(gz - p.z),
   R.r13*(gx - p.x) + R.r23*(gy - p.y) + R.r33*(gz - p.z))

/-- The statements `p[i].resize(3); p[i][0] = x; p[i][1] = y; p[i][2] = z;` of the source
(for `pB` the three assignments are those of the output arguments of
`inverseComposePoint`). -/
def assignPoint {K : Type} [Field K] (p : TPoints K) (i : Nat) (x y z : K) :
    Option (TPoints K) := do
  let row ← p[i]?
  let row := resize row 3 0
  let row ← wr row 0 x
  let row ← wr row 1 y
  let row ← wr row 2 z
  wr p i row

/-- One round of the loop of `generate_points`. -/
def generate_points_body {K : Type} [Field K] (T : Trig K) (qPose : CPose3D K)
    (pA pB : TPoints K) (i : Nat) : Option (TPoints K) := do
  let ax ← rd pA i 0
  let ay ← rd pA i 1
  let az ← rd pA i 2
  let b := inverseComposePoint T qPose ax ay az
  assignPoint pB i b.1 b.2.1 b.2.2

/-- The function `generate_points( pA, pB )`; the arguments are the vectors the caller passes
by reference, the result is their content on return.  The conversion
`CPose3DQuat qPose = CPose3D( Dx, Dy, Dz, yaw, pitch, roll )` keeps the pose, so `qPose` is
held by its six `CPose3D` arguments. -/
def generate_points {K : Type} [Field K] (T : Trig K) (pA pB : TPoints K) :
    Option (TPoints K × TPoints K) := do
  let Dx : K := 0.5
  let Dy : K := 1.5
  let Dz : K := 0.75
  let yaw := DEG2RAD T 10
  let pitch := DEG2RAD T 20
  let roll := DEG2RAD T 5
  let pA := resize pA 5 []
  let pB := resize pB 5 []
  let pA ← assignPoint pA 0 0.0 0.5 0.4
  let pA ← assignPoint pA 1 1.0 1.5 (-0.1)
  let pA ← assignPoint pA 2 1.2 1.1 0.9
  let pA ← assignPoint pA 3 0.7 0.3 3.4
  let pA ← assignPoint pA 4 1.9 2.5 (-1.7)
  let qPose : CPose3D K := ⟨Dx, Dy, Dz, yaw, pitch, roll⟩
  let pB ← (List.range 5).foldlM (generate_points_body T qPose pA) pB
  pure (pA, pB)

/-- The pose of the spec's concrete scenario: "yaw=10°, pitch=20°, roll=5°,
translation=(0.5,1.5,0.75)". -/
def scenarioPose {K : Type} [Field K] (T : Trig K) : CPose3D K :=
  ⟨0.5, 1.5, 0.75, DEG2RAD T 10, DEG2RAD T 20, DEG2RAD T 5⟩

/-- The five points A of the spec's concrete scenario. -/
def scenarioA {K : Type} [Field K] : TPoints K :=
  [[0, 0.5, 0.4], [1, 1.5, -0.1], [1.2, 1.1, 0.9], [0.7, 0.3, 3.4], [1.9, 2.5, -1.7]]

/-- A sample point set A (integer coordinates). -/
def sampleA : TPoints Int :=
  [[0, 5, 4], [10, 15, -1], [12, 11, 9], [7, 3, 34], [19, 25, -17]]

/-- A sample point set B (integer coordinates), with a sixth point and a fourth coordinate
that the adapters must ignore. -/
def sampleB : TPoints Int :=
  [[-5, -10, -3, 99], [5, 0, -8], [7, -4, 2], [2, -12, 27], [14, 10, -24], [1, 1, 1]]

/-! ## Binary floating-point values -/

/-- The number of binary digits of `n`, by a loop of at most `fuel` halvings (`fuel = n` is
always enough). -/
def bitLength : Nat → Nat → Nat
  | 0, _ => 0
  | fuel + 1, n => if n = 0 then 0 else bitLength fuel (n / 2) + 1

/-- The IEEE 754 rounding to nearest, ties to even, of the rational `x` to a binary
floating-point value with a significand of `p` bits; overflow and subnormal values are not
modelled.  `roundBinary 53 x` is the `double` nearest to `x` (the value of a decimal literal of
the source), and `roundBinary 24` is the conversion of a `double` to a `float`. -/
def roundBinary (p : Nat) (x : ℚ) : ℚ :=
  if x = 0 then 0 else
    let a : ℚ := |x|
    -- the exponent `e` with `2^e ≤ a < 2^(e+1)`
    let e0 : Int := (bitLength a.num.natAbs a.num.natAbs : Int) - (bitLength a.den a.den : Int)
    let e : Int := if (2 : ℚ) ^ e0 ≤ a then e0 else e0 - 1
    -- the unit in the last place, and `a` in units of it
    let ulp : ℚ := (2 : ℚ) ^ (e - ((p : Int) - 1))
    let q : ℚ := a / ulp
    let f : Int := ⌊q⌋
    let r : ℚ := q - f
    let m : Int :=
      if r < 1/2 then f else if 1/2 < r then f + 1 else if f % 2 = 0 then f else f + 1
    (if x < 0 then -1 else 1) * (m : ℚ) * ulp

/-- The five A points of `generate_points` as the `double` values of their literals. -/
def doubleA : TPoints ℚ :=
  [[roundBinary 53 0.0, roundBinary 53 0.5, roundBinary 53 0.4],
   [roundBinary 53 1.0, roundBinary 53 1.5, roundBinary 53 (-0.1)],
   [roundBinary 53 1.2, roundBinary 53 1.1, roundBinary 53 0.9],
   [roundBinary 53 0.7, roundBinary 53 0.3, roundBinary 53 3.4],
   [roundBinary 53 1.9, roundBinary 53 2.5, roundBinary 53 (-1.7)]]

/-- Five B points holding `double` values. -/
def doubleB : TPoints ℚ :=
  [[roundBinary 53 (-0.6), roundBinary 53 (-0.9), roundBinary 53 (-0.25)],
   [roundBinary 53 0.3, roundBinary 53 0.2, roundBinary 53 (-0.8)],
   [roundBinary 53 0.75, roundBinary 53 (-0.4), roundBinary 53 0.1],
   [roundBinary 53 1.1, roundBinary 53 (-1.5), roundBinary 53 2.5],
   [roundBinary 53 0.9, roundBinary 53 1.25, roundBinary 53 (-2.6)]]

/-! ## The benchmark registry -/

/-- The benchmark functions `lstTests` can hold: the three of this file, and those that other
files register. -/
inductive TestFunctor where
  | scan_matching_test_1
  | scan_matching_test_2
  | scan_matching_test_3
  | other (id : Nat)
deriving DecidableEq, Repr

/-- The two constructor arguments of `TestData(name, func)`. -/
structure TestData where
  name : String
  func : TestFunctor
deriving DecidableEq, Repr

/-- The function `register_tests_scan_matching()`, as a function of the global `lstTests`. -/
def register_tests_scan_matching (lstTests : List TestData) : List TestData :=
  let lstTests := lstTests ++ [⟨"scan_matching: 6D LS Rigid Trans. [CPose3D]",
    TestFunctor.scan_matching_test_1⟩]
  let lstTests := lstTests ++ [⟨"scan_matching: 6D LS Rigid Trans. [CPose3DQuat]",
    TestFunctor.scan_matching_test_2⟩]
  let lstTests := lstTests ++ [⟨"scan_matching: 6D LS Rigid Trans. [vector of points]",
    TestFunctor.scan_matching_test_3⟩]
  lstTests

end ScanMatching

namespace DifOdometry

/-! ## `DifOdometry_Camera_main.cpp` -/

/-- The constant `default_cfg_txt`. -/
def default_cfg_txt : String :=
  "; ---------------------------------------------------------------\n" ++
  "; FILE: Difodo Parameters.txt\n" ++
  ";\n" ++
  ";  MJT @ JANUARY-2014\n" ++
  "; ---------------------------------------------------------------\n\n" ++
  "[DIFODO_CONFIG]\n\n" ++
  ";cam_mode: 1 - 640x480, 2 - 320x240, 4 - 160x120 \n" ++
  "cam_mode = 2 \n\n" ++
  ";downsample: 1 - same resolution, 2 - rx/2, ry/2, 4 - rx/4, ry/4 \n" ++
  "downsample = 2 \n\n" ++
  "Set the frame rate (fps) to 30 or 60 Hz \n" ++
  "fps = 60 \n\n" ++
  ";Indicate the number of rows and columns. They must be equal or inferior to what is indicated with the 'downsample' variable). \n" ++
  "rows = 60 \n" ++
  "cols = 80 \n\n"

/-- What `main` does to the outside world, in program order.  Calls into the rest of the
application (`CDifodoCamera`, `CConfigFile`, `getch`) are recorded and taken to return
normally. -/
inductive Event where
  /-- The expression `argv[k]` is read as a C string (`string(argv[k])`, `filename = argv[k]`). -/
  | readArg (k : Nat)
  /-- The declaration `CDifodoCamera odo;`. -/
  | constructOdo
  /-- Output through `printf` or `cout`. -/
  | print (text : String)
  /-- The call `system::os::getch()`. -/
  | getch
  /-- The declaration `ofstream new_file(name)`: the file `name` is opened for writing; `ok`
  tells whether the stream opened.  The source never tests the stream. -/
  | fileOpen (name : String) (ok : Bool)
  /-- The statements `new_file << text; new_file.close();` on a stream that is open on `name`:
  the file receives `text`.  On a stream that did not open the two statements have no
  effect and no event is recorded. -/
  | fileWrite (name text : String)
  /-- The statements `odo.save_results = 1; odo.CreateResultsFile();`. -/
  | createResultsFile
  /-- The configuration is loaded from a `CConfigFileMemory` holding `text`. -/
  | loadConfigMemory (text : String)
  /-- The configuration is loaded from the `CConfigFile` named `name`. -/
  | loadConfigFile (name : String)
  /-- The call `odo.initializeScene()`. -/
  | initializeScene
  /-- The call `odo.openCamera()`. -/
  | openCamera
deriving DecidableEq, Repr

/-- How the modelled part of `main` ends. -/
inductive Exit where
  /-- A `return code;` statement. -/
  | returned (code : Int)
  /-- Control reaches the "Main operation" part (`odo.reset()` and the key loop), whose
  course depends on the keyboard and the camera. -/
  | mainOperation
  /-- A null or out-of-range `argv[k]` was used as a C string: undefined behaviour. -/
  | undefined
deriving DecidableEq, Repr

/-- The events of a run of `main` and how it ends. -/
structure Outcome where
  trace : List Event
  exit : Exit
deriving DecidableEq, Repr

/-- The local variables of `main` while the arguments are read, and the events so far. -/
structure ArgState where
  trace : List Event
  save_results : Bool
  use_config_file : Bool
  filename : String
deriving DecidableEq, Repr

/-- The result of a fragment of `main`: the state after it, or undefined behaviour after the
given events. -/
inductive Run where
  | ok (st : ArgState)
  | ub (trace : List Event)
deriving DecidableEq, Repr

/-- The body of `for (int i=1; i<num_arg; i++)`.  `argv[k]` is a string exactly for
`k < num_arg` (`argv[num_arg]` is the null pointer). -/
def argBody (argv : List String) (st : ArgState) (i : Nat) : Run :=
  -- if ( string(argv[i]) == "--save-logfile")
  let st := { st with trace := st.trace ++ [Event.readArg i] }
  match argv[i]? with
  | none => Run.ub st.trace
  | some a =>
    let st := if a = "--save-logfile"
      then { st with save_results := true, trace := st.trace ++ [Event.createResultsFile] }
      else st
    -- if ( string(argv[i]) == "--config")
    let st := { st with trace := st.trace ++ [Event.readArg i] }
    if a = "--config" then
      let st := { st with use_config_file := true }
      let st := { st with trace := st.trace ++ [Event.readArg (i+1)] }
      match argv[i+1]? with
      | none => Run.ub st.trace
      | some f => Run.ok { st with filename := f }
    else Run.ok st

/-- The loop `for (int i=1; i<num_arg; i++)`, given the values `i` takes. -/
def argLoop (argv : List String) : List Nat → ArgState → Run
  | [], st => Run.ok st
  | i :: rest, st =>
    match argBody argv st i with
    | Run.ok st => argLoop argv rest st
    | Run.ub t => Run.ub t

/-- The "Initial steps" of `main`: load the configuration from file or default, initialize
the scene and open the camera. -/
def initialSteps (st : ArgState) : Outcome :=
  let load := if st.use_config_file = false
    then Event.loadConfigMemory default_cfg_txt
    else Event.loadConfigFile st.filename
  { trace := st.trace ++ [load, Event.initializeScene, Event.openCamera],
    exit := Exit.mainOperation }

/-- The function `main(num_arg, argv)` up to the "Main operation" part; `num_arg` is the
length of `argv`, and `canOpen name` tells whether the file system lets `ofstream` open the
file `name` for writing. -/
def main (canOpen : String → Bool) (argv : List String) : Outcome :=
  let num_arg := argv.length
  let st : ArgState :=
    { trace := [Event.constructOdo], save_results := false, use_config_file := false,
      filename := "" }
  if num_arg < 2 then initialSteps st
  else
    let t := st.trace ++ [Event.readArg 1]
    match argv[1]? with
    | none => { trace := t, exit := Exit.undefined }
    | some a1 =>
      if a1 = "--help" then
        { trace := t ++
            [Event.print "\n\t       Arguments of the function 'main' \n",
             Event.print ("===============================" ++
               "===============================\n\n"),
             Event.print " --help: Shows this menu... \n\n",
             Event.print " --config FICH.txt: Load FICH.txt as config file \n\n",
             Event.print " --create-config FICH.txt: Save the default config parameters \n\n",
             Event.print " \t\t\t   in FICH.txt and close the program \n\n",
             Event.print " --save-logfile: Enable saving a file with results of the pose estimate \n\n",
             Event.getch],
          exit := Exit.returned 1 }
      else
        let t := t ++ [Event.readArg 1]
        if a1 = "--create-config" then
          let t := t ++ [Event.readArg 2]
          match argv[2]? with
          | none => { trace := t, exit := Exit.undefined }
          | some filename =>
            let t := t ++ [Event.print ("\n" ++ "Nombre del archivo: " ++ filename)]
            -- ofstream new_file(filename.c_str());
            let opened := canOpen filename
            let t := t ++ [Event.fileOpen filename opened]
            -- new_file << string(default_cfg_txt); new_file.close();
            let t := if opened then t ++ [Event.fileWrite filename default_cfg_txt] else t
            { trace := t ++ [Event.print ("\n" ++ "File saved" ++ "\n"), Event.getch],
              exit := Exit.returned 1 }
        else
          match argLoop argv (List.range' 1 (num_arg - 1)) { st with trace := t } with
          | Run.ub t => { trace := t, exit := Exit.undefined }
          | Run.ok st => initialSteps st

/-- The indices `k` of the reads `argv[k]` in a trace. -/
def argReads : List Event → List Nat
  | [] => []
  | Event.readArg k :: rest => k :: argReads rest
  | _ :: rest => argReads rest

/-- The files written in a trace, with what was written: a `fileWrite` event is recorded only
for a stream that opened. -/
def fileWrites : List Event → List (String × String)
  | [] => []
  | Event.fileWrite name text :: rest => (name, text) :: fileWrites rest
  | _ :: rest => fileWrites rest

/-- The names of the files a trace opens for writing, whether or not they opened. -/
def fileOpens : List Event → List String
  | [] => []
  | Event.fileOpen name _ :: rest => name :: fileOpens rest
  | _ :: rest => fileOpens rest

/-- Whether an event loads a configuration. -/
def Event.isLoad : Event → Bool
  | Event.loadConfigMemory _ => true
  | Event.loadConfigFile _ => true
  | _ => false

/-- Whether an event belongs to the "Initial steps": loading a configuration, initializing
the scene, opening the camera. -/
def Event.isInitialStep : Event → Bool
  | Event.loadConfigMemory _ => true
  | Event.loadConfigFile _ => true
  | Event.initializeScene => true
  | Event.openCamera => true
  | _ => false

/-- A file system in which a file of any name but the empty one can be opened for writing
(no file system opens the empty name). -/
def sampleFileSystem (name : String) : Bool := name != ""

/-- What the argument loop has established after the rounds `i = 1, …, m`: no configuration
has been loaded yet, `use_config_file` tells whether some `argv[i]` was `--config`, and
`filename` is the argument after the last one. -/
def ArgInv (argv : List String) (m : Nat) (st : ArgState) : Prop :=
  st.trace.filter Event.isLoad = [] ∧
  (st.use_config_file = false → ∀ i, 1 ≤ i → i ≤ m → argv[i]? ≠ some "--config") ∧
  (st.use_config_file = true → ∃ i, 1 ≤ i ∧ i ≤ m ∧ argv[i]? = some "--config" ∧
      (∀ j, i < j → j ≤ m → argv[j]? ≠ some "--config") ∧ argv[i+1]? = some st.filename)

end DifOdometry

namespace ScanMatching

/-! ## Auxiliary facts -/

theorem range_five : List.range 5 = [0, 1, 2, 3, 4] := by decide

theorem exists_five_of_le {γ : Type} (l : List γ) (h : 5 ≤ l.length) :
    ∃ a b c d e r, l = a :: b :: c :: d :: e :: r := by
  match l, h with
  | a :: b :: c :: d :: e :: r, _ => exact ⟨a, b, c, d, e, r, rfl⟩

theorem exists_three_of_le {γ : Type} (l : List γ) (h : 3 ≤ l.length) :
    ∃ a b c r, l = a :: b :: c :: r := by
  match l, h with
  | a :: b :: c :: r, _ => exact ⟨a, b, c, r, rfl⟩

/-- A point set with five points of three coordinates, spelled out. -/
theorem FivePoints.shape {α : Type} {p : TPoints α} (h : FivePoints p) :
    ∃ (x0 y0 z0 x1 y1 z1 x2 y2 z2 x3 y3 z3 x4 y4 z4 : α) (r0 r1 r2 r3 r4 : List α)
      (r : TPoints α),
      p = (x0 :: y0 :: z0 :: r0) :: (x1 :: y1 :: z1 :: r1) :: (x2 :: y2 :: z2 :: r2) ::
          (x3 :: y3 :: z3 :: r3) :: (x4 :: y4 :: z4 :: r4) :: r := by
  obtain ⟨h5, h3⟩ := h
  obtain ⟨a, b, c, d, e, r, rfl⟩ := exists_five_of_le p h5
  obtain ⟨x0, y0, z0, r0, rfl⟩ := exists_three_of_le a (h3 0 (by decide) a (by simp))
  obtain ⟨x1, y1, z1, r1, rfl⟩ := exists_three_of_le b (h3 1 (by decide) b (by simp))
  obtain ⟨x2, y2, z2, r2, rfl⟩ := exists_three_of_le c (h3 2 (by decide) c (by simp))
  obtain ⟨x3, y3, z3, r3, rfl⟩ := exists_three_of_le d (h3 3 (by decide) d (by simp))
  obtain ⟨x4, y4, z4, r4, rfl⟩ := exists_three_of_le e (h3 4 (by decide) e (by simp))
  exact ⟨x0, y0, z0, x1, y1, z1, x2, y2, z2, x3, y3, z3, x4, y4, z4, r0, r1, r2, r3, r4, r, rfl⟩

theorem fivePoints_sampleA : FivePoints sampleA := by
  refine ⟨by decide, ?_⟩
  intro i hi row hrow
  interval_cases i <;> simp [sampleA] at hrow <;> subst hrow <;> decide

theorem fivePoints_sampleB : FivePoints sampleB := by
  refine ⟨by decide, ?_⟩
  intro i hi row hrow
  interval_cases i <;> simp [sampleB] at hrow <;> subst hrow <;> decide

theorem fivePoints_doubleA : FivePoints doubleA := by
  refine ⟨by simp [doubleA], ?_⟩
  intro i hi row hrow
  interval_cases i <;> simp [doubleA] at hrow <;> subst hrow <;> simp

theorem fivePoints_doubleB : FivePoints doubleB := by
  refine ⟨by simp [doubleB], ?_⟩
  intro i hi row hrow
  interval_cases i <;> simp [doubleB] at hrow <;> subst hrow <;> simp

/-- The `double` nearest to 0.4 and the `float` nearest to that `double`. -/
theorem roundBinary_two_fifths :
    roundBinary 53 0.4 = 3602879701896397 / 9007199254740992 ∧
    roundBinary 24 (roundBinary 53 0.4) = 13421773 / 33554432 := by
  decide!

theorem length_resize {α : Type} (v : List α) (n : Nat) (z : α) :
    (resize v n z).length = n := by
  simp [resize]
  omega

theorem set_three {γ : Type} (l : List γ) (h : l.length = 3) (a b c : γ) :
    ((l.set 0 a).set 1 b).set 2 c = [a, b, c] := by
  match l, h with
  | [_, _, _], _ => rfl

/-- Assigning the point `i` of a point set that has a row `i` replaces that row. -/
theorem assignPoint_eval {K : Type} [Field K] (p : TPoints K) (i : Nat) (hi : i < p.length)
    (x y z : K) : assignPoint p i x y z = some (p.set i [x, y, z]) := by
  have hrow : p[i]? = some p[i] := List.getElem?_eq_getElem hi
  have h3 := length_resize p[i] 3 (0 : K)
  simp [assignPoint, hrow, wr, h3, hi, set_three _ h3]

/-- Five assignments in a row overwrite a point set of five rows entirely. -/
theorem assign_five {K : Type} [Field K] (q : TPoints K) (hq : q.length = 5)
    (x0 y0 z0 x1 y1 z1 x2 y2 z2 x3 y3 z3 x4 y4 z4 : K) {γ : Type}
    (f : TPoints K → Option γ) :
    ((assignPoint q 0 x0 y0 z0).bind fun q =>
      (assignPoint q 1 x1 y1 z1).bind fun q =>
        (assignPoint q 2 x2 y2 z2).bind fun q =>
          (assignPoint q 3 x3 y3 z3).bind fun q =>
            (assignPoint q 4 x4 y4 z4).bind f) =
    f [[x0, y0, z0], [x1, y1, z1], [x2, y2, z2], [x3, y3, z3], [x4, y4, z4]] := by
  match q, hq with
  | [_, _, _, _, _], _ =>
    rw [assignPoint_eval _ 0 (by simp)]
    simp only [Option.some_bind, List.set_cons_zero, List.set_cons_succ]
    rw [assignPoint_eval _ 1 (by simp)]
    simp only [Option.some_bind, List.set_cons_zero, List.set_cons_succ]
    rw [assignPoint_eval _ 2 (by simp)]
    simp only [Option.some_bind, List.set_cons_zero, List.set_cons_succ]
    rw [assignPoint_eval _ 3 (by simp)]
    simp only [Option.some_bind, List.set_cons_zero, List.set_cons_succ]
    rw [assignPoint_eval _ 4 (by simp)]
    simp only [Option.some_bind, List.set_cons_zero, List.set_cons_succ]

/-- The loop of `generate_points` on spelled-out A points. -/
theorem points_loop {K : Type} [Field K] (T : Trig K) (P : CPose3D K)
    (q : TPoints K) (hq : q.length = 5)
    (x0 y0 z0 x1 y1 z1 x2 y2 z2 x3 y3 z3 x4 y4 z4 : K) :
    [0, 1, 2, 3, 4].foldlM (generate_points_body T P
      [[x0, y0, z0], [x1, y1, z1], [x2, y2, z2], [x3, y3, z3], [x4, y4, z4]]) q =
    some (List.map (fun a : K × K × K =>
          let b := inverseComposePoint T P a.1 a.2.1 a.2.2
          [b.1, b.2.1, b.2.2])
          [(x0, y0, z0), (x1, y1, z1), (x2, y2, z2), (x3, y3, z3), (x4, y4, z4)]) := by
  simp only [List.foldlM, generate_points_body, rd, List.getElem?_cons_zero,
    List.getElem?_cons_succ, Option.some_bind, Option.bind_eq_bind, Option.pure_def,
    Option.bind_some]
  have h := assign_five q hq (inverseComposePoint T P x0 y0 z0).1
    (inverseComposePoint T P x0 y0 z0).2.1 (inverseComposePoint T P x0 y0 z0).2.2
    (inverseComposePoint T P x1 y1 z1).1
    (inverseComposePoint T P x1 y1 z1).2.1 (inverseComposePoint T P x1 y1 z1).2.2
    (inverseComposePoint T P x2 y2 z2).1
    (inverseComposePoint T P x2 y2 z2).2.1 (inverseComposePoint T P x2 y2 z2).2.2
    (inverseComposePoint T P x3 y3 z3).1
    (inverseComposePoint T P x3 y3 z3).2.1 (inverseComposePoint T P x3 y3 z3).2.2
    (inverseComposePoint T P x4 y4 z4).1
    (inverseComposePoint T P x4 y4 z4).2.1 (inverseComposePoint T P x4 y4 z4).2.2 some
  simp only [Option.bind_some] at h
  simpa using h

/-- The value `generate_points` returns, whatever the two vectors held before the call. -/
theorem generate_points_eval {K : Type} [Field K] (T : Trig K) (pA0 pB0 : TPoints K) :
    generate_points T pA0 pB0 =
      some ([[0.0, 0.5, 0.4], [1.0, 1.5, -0.1], [1.2, 1.1, 0.9], [0.7, 0.3, 3.4],
             [1.9, 2.5, -1.7]],
        (List.map (fun a : K × K × K =>
          let b := inverseComposePoint T
            ⟨0.5, 1.5, 0.75, DEG2RAD T 10, DEG2RAD T 20, DEG2RAD T 5⟩ a.1 a.2.1 a.2.2
          [b.1, b.2.1, b.2.2])
          [(0.0, 0.5, 0.4), (1.0, 1.5, -0.1), (1.2, 1.1, 0.9), (0.7, 0.3, 3.4),
           (1.9, 2.5, -1.7)])) := by
  have hA := length_resize pA0 5 ([] : List K)
  have hB := length_resize pB0 5 ([] : List K)
  simp only [generate_points, range_five, Option.bind_eq_bind, Option.pure_def]
  rw [assign_five _ hA, points_loop T _ _ hB]
  rfl

/-- The rows of the rotation matrix of unit (cos, sin) pairs are orthonormal, so composing a
pose with the inverse composition gives the point back. -/
theorem compose_inverseCompose {K : Type} [Field K] (T : Trig K) (P : CPose3D K)
    (hy : T.cos P.yaw ^ 2 + T.sin P.yaw ^ 2 = 1)
    (hp : T.cos P.pitch ^ 2 + T.sin P.pitch ^ 2 = 1)
    (hr : T.cos P.roll ^ 2 + T.sin P.roll ^ 2 = 1) (gx gy gz : K) :
    composePoint T P (inverseComposePoint T P gx gy gz).1
      (inverseComposePoint T P gx gy gz).2.1 (inverseComposePoint T P gx gy gz).2.2 =
      (gx, gy, gz) := by
  simp only [composePoint, inverseComposePoint, CPose3D.rotation]
  generalize T.cos P.yaw = cy at *
  generalize T.sin P.yaw = sy at *
  generalize T.cos P.pitch = cp at *
  generalize T.sin P.pitch = sp at *
  generalize T.cos P.roll = cr at *
  generalize T.sin P.roll = sr at *
  refine Prod.ext ?_ (Prod.ext ?_ ?_)
  · show _ = gx
    linear_combination
      (gx - P.x) * (cy^2 * hp + hy + (cy^2 * sp^2 + sy^2) * hr) +
      (gy - P.y) * (cy * sy * hp + cy * sy * (sp^2 - 1) * hr) +
      (gz - P.z) * (cy * sp * cp * hr)
  · show _ = gy
    linear_combination
      (gx - P.x) * (cy * sy * hp + cy * sy * (sp^2 - 1) * hr) +
      (gy - P.y) * (sy^2 * hp + hy + (sy^2 * sp^2 + cy^2) * hr) +
      (gz - P.z) * (sy * sp * cp * hr)
  · show _ = gz
    linear_combination
      (gx - P.x) * (cy * sp * cp * hr) +
      (gy - P.y) * (sy * sp * cp * hr) +
      (gz - P.z) * (hp + cp^2 * hr)

/-- Cosine and sine of an angle of `d` degrees, `0 < d < 90`, are positive. -/
theorem real_angle_pos (d : ℝ) (h0 : 0 < d) (h1 : d < 90) :
    0 < Real.cos (d * Real.pi / 180) ∧ 0 < Real.sin (d * Real.pi / 180) := by
  have hpi := Real.pi_pos
  have ha : 0 < d * Real.pi / 180 := by positivity
  have hb : d * Real.pi / 180 < Real.pi / 2 := by nlinarith
  exact ⟨Real.cos_pos_of_mem_Ioo ⟨by linarith, hb⟩,
    Real.sin_pos_of_pos_of_lt_pi ha (by linarith)⟩

/-- The loop of `generate_vector_of_points` on a vector of 30 entries and spelled-out point
sets: thirty in-bounds assignments. -/
theorem vector_loop_eval {α : Type} (w : List α) (hw : w.length = 30)
    (x0 y0 z0 x1 y1 z1 x2 y2 z2 x3 y3 z3 x4 y4 z4 : α) (r0 r1 r2 r3 r4 : List α)
    (r : TPoints α)
    (u0 v0 w0 u1 v1 w1 u2 v2 w2 u3 v3 w3 u4 v4 w4 : α) (s0 s1 s2 s3 s4 : List α)
    (s : TPoints α) :
    (List.range 5).foldlM (generate_vector_of_points_body
      ((x0 :: y0 :: z0 :: r0) :: (x1 :: y1 :: z1 :: r1) :: (x2 :: y2 :: z2 :: r2) ::
          (x3 :: y3 :: z3 :: r3) :: (x4 :: y4 :: z4 :: r4) :: r)
      ((u0 :: v0 :: w0 :: s0) :: (u1 :: v1 :: w1 :: s1) :: (u2 :: v2 :: w2 :: s2) ::
          (u3 :: v3 :: w3 :: s3) :: (u4 :: v4 :: w4 :: s4) :: s)) w =
    some ((((((((((((((((((((((((((((((w.set 0 x0).set 1 y0).set 2 z0).set 3 u0).set 4 v0).set 5 w0
      ).set 6 x1).set 7 y1).set 8 z1).set 9 u1).set 10 v1).set 11 w1
      ).set 12 x2).set 13 y2).set 14 z2).set 15 u2).set 16 v2).set 17 w2
      ).set 18 x3).set 19 y3).set 20 z3).set 21 u3).set 22 v3).set 23 w3
      ).set 24 x4).set 25 y4).set 26 z4).set 27 u4).set 28 v4).set 29 w4) := by
  simp [generate_vector_of_points_body, range_five, rd, wr, hw]

end ScanMatching

namespace ScanMatching

/-! ## `generate_points` -/

/-- Claim C1, as stated, fails: over the reals, with the real cosine and sine, it is not the
case that every B point returned by `generate_points` is `R·pA[i] + t` for the scenario pose
(yaw 10°, pitch 20°, roll 5°, `t = (0.5, 1.5, 0.75)`). -/
theorem generate_points_not_forward :
    ¬ ∃ pA pB : TPoints ℝ,
      generate_points (⟨Real.cos, Real.sin, Real.pi⟩ : Trig ℝ) [] [] = some (pA, pB) ∧
      ∀ i : Fin 5, ∃ a b c x y z : ℝ,
        pA[i.val]? = some [a, b, c] ∧ pB[i.val]? = some [x, y, z] ∧
        composePoint (⟨Real.cos, Real.sin, Real.pi⟩ : Trig ℝ)
          (scenarioPose ⟨Real.cos, Real.sin, Real.pi⟩) a b c = (x, y, z) := by
  rintro ⟨pA, pB, hgen, hfw⟩
  rw [generate_points_eval] at hgen
  obtain ⟨rfl, rfl⟩ := Prod.mk.inj (Option.some.inj hgen)
  obtain ⟨hcy, hsy⟩ := real_angle_pos 10 (by norm_num) (by norm_num)
  obtain ⟨hcp, hsp⟩ := real_angle_pos 20 (by norm_num) (by norm_num)
  obtain ⟨hcr, hsr⟩ := real_angle_pos 5 (by norm_num) (by norm_num)
  obtain ⟨a0, b0, c0, x0, y0, z0, hA0, hB0, hC0⟩ := hfw 0
  obtain ⟨a1, b1, c1, x1, y1, z1, hA1, hB1, hC1⟩ := hfw 1
  obtain ⟨a2, b2, c2, x2, y2, z2, hA2, hB2, hC2⟩ := hfw 2
  simp at hA0 hA1 hA2
  obtain ⟨rfl, rfl, rfl⟩ := hA0
  obtain ⟨rfl, rfl, rfl⟩ := hA1
  obtain ⟨rfl, rfl, rfl⟩ := hA2
  simp [inverseComposePoint] at hB0 hB1 hB2
  -- the x coordinates of the points 0, 1 and 2
  have e0 := hB0.1.trans (congrArg Prod.fst hC0).symm
  have e1 := hB1.1.trans (congrArg Prod.fst hC1).symm
  have e2 := hB2.1.trans (congrArg Prod.fst hC2).symm
  simp only [composePoint, CPose3D.rotation, scenarioPose, DEG2RAD] at e0 e1 e2
  generalize Real.cos (10 * Real.pi / 180) = cy at *
  generalize Real.sin (10 * Real.pi / 180) = sy at *
  generalize Real.cos (20 * Real.pi / 180) = cp at *
  generalize Real.sin (20 * Real.pi / 180) = sp at *
  generalize Real.cos (5 * Real.pi / 180) = cr at *
  generalize Real.sin (5 * Real.pi / 180) = sr at *
  have p1 : 0 < cy * sp * cr := mul_pos (mul_pos hcy hsp) hcr
  have p2 : 0 < sy * sr := mul_pos hsy hsr
  norm_num at e0 e1 e2
  -- the three equations force `r31 = r13`, but `r31 = -sp < 0 < cy*sp*cr + sy*sr = r13`
  linarith

/-- Claim C1, amended: over the reals, whatever the two vectors held before, `generate_points`
returns the five A points of the scenario and, for each `i` in 0..4, the B point
`pB[i] = Rᵀ·(pA[i] − t)`, the inverse composition with the scenario pose; equivalently
`pA[i] = R·pB[i] + t`: the pose takes B to A, not A to B. -/
theorem generate_points_inverse (pA0 pB0 : TPoints ℝ) :
    ∃ pA pB : TPoints ℝ,
      generate_points (⟨Real.cos, Real.sin, Real.pi⟩ : Trig ℝ) pA0 pB0 = some (pA, pB) ∧
      pA = scenarioA ∧
      ∀ i : Fin 5, ∃ a b c x y z : ℝ,
        pA[i.val]? = some [a, b, c] ∧ pB[i.val]? = some [x, y, z] ∧
        inverseComposePoint (⟨Real.cos, Real.sin, Real.pi⟩ : Trig ℝ)
          (scenarioPose ⟨Real.cos, Real.sin, Real.pi⟩) a b c = (x, y, z) ∧
        composePoint (⟨Real.cos, Real.sin, Real.pi⟩ : Trig ℝ)
          (scenarioPose ⟨Real.cos, Real.sin, Real.pi⟩) x y z = (a, b, c) := by
  refine ⟨_, _, generate_points_eval _ pA0 pB0, ?_, ?_⟩
  · norm_num [scenarioA]
  · have key : ∀ a b c : ℝ, composePoint (⟨Real.cos, Real.sin, Real.pi⟩ : Trig ℝ)
        (scenarioPose ⟨Real.cos, Real.sin, Real.pi⟩)
        (inverseComposePoint ⟨Real.cos, Real.sin, Real.pi⟩
          (scenarioPose ⟨Real.cos, Real.sin, Real.pi⟩) a b c).1
        (inverseComposePoint ⟨Real.cos, Real.sin, Real.pi⟩
          (scenarioPose ⟨Real.cos, Real.sin, Real.pi⟩) a b c).2.1
        (inverseComposePoint ⟨Real.cos, Real.sin, Real.pi⟩
          (scenarioPose ⟨Real.cos, Real.sin, Real.pi⟩) a b c).2.2 = (a, b, c) := fun a b c =>
      compose_inverseCompose _ _ (Real.cos_sq_add_sin_sq _) (Real.cos_sq_add_sin_sq _)
        (Real.cos_sq_add_sin_sq _) a b c
    intro i
    fin_cases i
    · exact ⟨_, _, _, _, _, _, rfl, rfl, rfl, key _ _ _⟩
    · exact ⟨_, _, _, _, _, _, rfl, rfl, rfl, key _ _ _⟩
    · exact ⟨_, _, _, _, _, _, rfl, rfl, rfl, key _ _ _⟩
    · exact ⟨_, _, _, _, _, _, rfl, rfl, rfl, key _ _ _⟩
    · exact ⟨_, _, _, _, _, _, rfl, rfl, rfl, key _ _ _⟩

/-! ## The two input adapters -/

/-- Claim C3: for point sets `pA`, `pB` holding at least 5 points of 3 coordinates, and
whatever `inV` held before, `generate_vector_of_points` returns a vector of length exactly 30
with `inV[6i+k] = pA[i][k]` and `inV[6i+3+k] = pB[i][k]` for every `i < 5` and `k < 3`. -/
theorem generate_vector_of_points_layout {α : Type} (z : α) (pA pB : TPoints α)
    (inV0 : List α) (hA : FivePoints pA) (hB : FivePoints pB) :
    ∃ inV : List α, generate_vector_of_points z pA pB inV0 = some inV ∧ inV.length = 30 ∧
      ∀ i, i < 5 → ∀ k, k < 3 →
        (∃ a, rd pA i k = some a ∧ inV[6*i+k]? = some a) ∧
        (∃ b, rd pB i k = some b ∧ inV[6*i+3+k]? = some b) := by
  obtain ⟨x0, y0, z0, x1, y1, z1, x2, y2, z2, x3, y3, z3, x4, y4, z4, r0, r1, r2, r3, r4, r,
    rfl⟩ := hA.shape
  obtain ⟨u0, v0, w0, u1, v1, w1, u2, v2, w2, u3, v3, w3, u4, v4, w4, s0, s1, s2, s3, s4, s,
    rfl⟩ := hB.shape
  have hw := length_resize inV0 30 z
  refine ⟨_, vector_loop_eval (resize inV0 30 z) hw _ _ _ _ _ _ _ _ _ _ _ _ _ _ _ _ _ _ _ _ _
    _ _ _ _ _ _ _ _ _ _ _ _ _ _ _ _ _ _ _ _ _, by simp [hw], ?_⟩
  intro i hi k hk
  interval_cases i <;> interval_cases k <;> simp [rd, List.getElem?_set, hw]

/-- Claim C3 at the sample point sets and a vector that held two entries. -/
theorem generate_vector_of_points_layout_witness :
    FivePoints sampleA ∧ FivePoints sampleB ∧
    ∃ inV : List Int, generate_vector_of_points 0 sampleA sampleB [7, 7] = some inV ∧
      inV.length = 30 ∧
      ∀ i, i < 5 → ∀ k, k < 3 →
        (∃ a, rd sampleA i k = some a ∧ inV[6*i+k]? = some a) ∧
        (∃ b, rd sampleB i k = some b ∧ inV[6*i+3+k]? = some b) :=
  ⟨fivePoints_sampleA, fivePoints_sampleB,
    generate_vector_of_points_layout 0 sampleA sampleB [7, 7] fivePoints_sampleA
      fivePoints_sampleB⟩

/-- Claim C4, as stated, fails when the coordinate fields of `TMatchingPair` are narrower
than the entries of the vector: with `float` fields (the assignment `pair.this_z = pA[0][2]`
converts the `double` to a `float`) and the A points of the benchmark, the field `this_z` of
pair 0 is the `float` 13421773/2^25 while `inV[2]` is the `double` 0.4, that is
3602879701896397/2^53. -/
theorem adapters_differ_for_float_fields :
    (generate_list_of_points (roundBinary 24) doubleA doubleB []).bind
        (fun list => (list[0]?).map (fun p => p.this_z)) = some (13421773 / 33554432) ∧
    (generate_vector_of_points 0 doubleA doubleB []).bind (fun inV => inV[6*0+2]?) =
        some (3602879701896397 / 9007199254740992) ∧
    (13421773 / 33554432 : ℚ) ≠ 3602879701896397 / 9007199254740992 := by
  refine ⟨?_, ?_, by norm_num⟩
  · simp [generate_list_of_points, generate_list_of_points_body, range_five, rd, doubleA,
      doubleB, roundBinary_two_fifths.2]
  · have hw := length_resize ([] : List ℚ) 30 0
    simp only [generate_vector_of_points, doubleA, doubleB]
    rw [vector_loop_eval (resize [] 30 0) hw]
    simp [List.getElem?_set, hw, roundBinary_two_fifths.1]

/-- Claim C4, amended: for point sets `pA`, `pB` holding at least 5 points of 3 coordinates,
the list built by `generate_list_of_points` from the empty list and the vector built by
`generate_vector_of_points` hold the same correspondences in the same order, up to the
conversion to the type of the pair's coordinate fields: for every `i < 5` the fields
`this_x, this_y, this_z, other_x, other_y, other_z` of the `i`-th pair are
`conv inV[6i], …, conv inV[6i+5]`, where `conv` is the conversion that the assignments
`pair.this_x = pA[i][0]`, … perform. -/
theorem adapters_agree {α β : Type} (conv : α → β) (z : α) (pA pB : TPoints α)
    (inV0 : List α) (hA : FivePoints pA) (hB : FivePoints pB) :
    ∃ (list : List (TMatchingPair β)) (inV : List α),
      generate_list_of_points conv pA pB [] = some list ∧
      generate_vector_of_points z pA pB inV0 = some inV ∧
      ∀ i, i < 5 → ∃ p, list[i]? = some p ∧
        (inV[6*i]?).map conv = some p.this_x ∧
        (inV[6*i+1]?).map conv = some p.this_y ∧
        (inV[6*i+2]?).map conv = some p.this_z ∧
        (inV[6*i+3]?).map conv = some p.other_x ∧
        (inV[6*i+4]?).map conv = some p.other_y ∧
        (inV[6*i+5]?).map conv = some p.other_z := by
  obtain ⟨x0, y0, z0, x1, y1, z1, x2, y2, z2, x3, y3, z3, x4, y4, z4, r0, r1, r2, r3, r4, r,
    rfl⟩ := hA.shape
  obtain ⟨u0, v0, w0, u1, v1, w1, u2, v2, w2, u3, v3, w3, u4, v4, w4, s0, s1, s2, s3, s4, s,
    rfl⟩ := hB.shape
  have hw := length_resize inV0 30 z
  refine ⟨[⟨0, 0, conv x0, conv y0, conv z0, conv u0, conv v0, conv w0⟩,
           ⟨1, 1, conv x1, conv y1, conv z1, conv u1, conv v1, conv w1⟩,
           ⟨2, 2, conv x2, conv y2, conv z2, conv u2, conv v2, conv w2⟩,
           ⟨3, 3, conv x3, conv y3, conv z3, conv u3, conv v3, conv w3⟩,
           ⟨4, 4, conv x4, conv y4, conv z4, conv u4, conv v4, conv w4⟩], _, ?_,
    vector_loop_eval (resize inV0 30 z) hw _ _ _ _ _ _ _ _ _ _ _ _ _ _ _ _ _ _ _ _ _
    _ _ _ _ _ _ _ _ _ _ _ _ _ _ _ _ _ _ _ _ _, ?_⟩
  · simp [generate_list_of_points, generate_list_of_points_body, range_five, rd]
  · intro i hi
    interval_cases i <;> simp [List.getElem?_set, hw]

/-- Claim C4, amended, at the `double` points of the benchmark and `float` fields. -/
theorem adapters_agree_witness :
    FivePoints doubleA ∧ FivePoints doubleB ∧
    ∃ (list : List (TMatchingPair ℚ)) (inV : List ℚ),
      generate_list_of_points (roundBinary 24) doubleA doubleB [] = some list ∧
      generate_vector_of_points 0 doubleA doubleB [] = some inV ∧
      ∀ i, i < 5 → ∃ p, list[i]? = some p ∧
        (inV[6*i]?).map (roundBinary 24) = some p.this_x ∧
        (inV[6*i+1]?).map (roundBinary 24) = some p.this_y ∧
        (inV[6*i+2]?).map (roundBinary 24) = some p.this_z ∧
        (inV[6*i+3]?).map (roundBinary 24) = some p.other_x ∧
        (inV[6*i+4]?).map (roundBinary 24) = some p.other_y ∧
        (inV[6*i+5]?).map (roundBinary 24) = some p.other_z :=
  ⟨fivePoints_doubleA, fivePoints_doubleB,
    adapters_agree (roundBinary 24) 0 doubleA doubleB [] fivePoints_doubleA
      fivePoints_doubleB⟩

/-- Claim C5, as stated, fails when the coordinate fields of `TMatchingPair` are narrower
than the coordinates of the points: with `float` fields and the A points of the benchmark,
the pair appended first to the empty list has `this_z` equal to the `float` 13421773/2^25,
while `pA[0][2]` is the `double` 0.4, that is 3602879701896397/2^53. -/
theorem appended_pair_differs_for_float_fields :
    (generate_list_of_points (roundBinary 24) doubleA doubleB []).bind
        (fun list => (list[([] : List (TMatchingPair ℚ)).length + 0]?).map
          (fun p => p.this_z)) =
      some (13421773 / 33554432) ∧
    rd doubleA 0 2 = some (3602879701896397 / 9007199254740992) ∧
    (13421773 / 33554432 : ℚ) ≠ 3602879701896397 / 9007199254740992 := by
  refine ⟨?_, ?_, by norm_num⟩
  · simp [generate_list_of_points, generate_list_of_points_body, range_five, rd, doubleA,
      doubleB, roundBinary_two_fifths.2]
  · simp [rd, doubleA, roundBinary_two_fifths.1]

/-- Claim C5, amended: for every list `L` and point sets `pA`, `pB` holding at least 5 points,
`generate_list_of_points` returns `L` followed by exactly 5 pairs; the entries of `L` keep
their positions, and the `j`-th appended pair (`j` = 0..4) has `this_idx = other_idx = j`,
`this = conv pA[j]` and `other = conv pB[j]` coordinate by coordinate, where `conv` is the
conversion to the type of the pair's coordinate fields that the assignments
`pair.this_x = pA[i][0]`, … perform. -/
theorem generate_list_of_points_appends {α β : Type} (conv : α → β) (pA pB : TPoints α)
    (L : List (TMatchingPair β)) (hA : FivePoints pA) (hB : FivePoints pB) :
    ∃ ps : List (TMatchingPair β),
      generate_list_of_points conv pA pB L = some (L ++ ps) ∧ ps.length = 5 ∧
      (∀ i, i < L.length → (L ++ ps)[i]? = L[i]?) ∧
      ∀ j, j < 5 → ∃ p, (L ++ ps)[L.length + j]? = some p ∧
        p.this_idx = j ∧ p.other_idx = j ∧
        (rd pA j 0).map conv = some p.this_x ∧ (rd pA j 1).map conv = some p.this_y ∧
        (rd pA j 2).map conv = some p.this_z ∧
        (rd pB j 0).map conv = some p.other_x ∧ (rd pB j 1).map conv = some p.other_y ∧
        (rd pB j 2).map conv = some p.other_z := by
  obtain ⟨x0, y0, z0, x1, y1, z1, x2, y2, z2, x3, y3, z3, x4, y4, z4, r0, r1, r2, r3, r4, r,
    rfl⟩ := hA.shape
  obtain ⟨u0, v0, w0, u1, v1, w1, u2, v2, w2, u3, v3, w3, u4, v4, w4, s0, s1, s2, s3, s4, s,
    rfl⟩ := hB.shape
  refine ⟨[⟨0, 0, conv x0, conv y0, conv z0, conv u0, conv v0, conv w0⟩,
           ⟨1, 1, conv x1, conv y1, conv z1, conv u1, conv v1, conv w1⟩,
           ⟨2, 2, conv x2, conv y2, conv z2, conv u2, conv v2, conv w2⟩,
           ⟨3, 3, conv x3, conv y3, conv z3, conv u3, conv v3, conv w3⟩,
           ⟨4, 4, conv x4, conv y4, conv z4, conv u4, conv v4, conv w4⟩], ?_, rfl, ?_, ?_⟩
  · simp [generate_list_of_points, generate_list_of_points_body, range_five, rd]
  · intro i hi
    exact List.getElem?_append_left hi
  · intro j hj
    rw [List.getElem?_append_right (Nat.le_add_right _ _), Nat.add_sub_cancel_left]
    interval_cases j <;> simp [rd]

/-- Claim C5, amended, at the `double` points of the benchmark, `float` fields and a list
that held one pair. -/
theorem generate_list_of_points_appends_witness :
    FivePoints doubleA ∧ FivePoints doubleB ∧
    ∃ ps : List (TMatchingPair ℚ),
      generate_list_of_points (roundBinary 24) doubleA doubleB [⟨8, 9, 1, 2, 3, 4, 5, 6⟩] =
        some ([⟨8, 9, 1, 2, 3, 4, 5, 6⟩] ++ ps) ∧ ps.length = 5 ∧
      (∀ i, i < [(⟨8, 9, 1, 2, 3, 4, 5, 6⟩ : TMatchingPair ℚ)].length →
        ([⟨8, 9, 1, 2, 3, 4, 5, 6⟩] ++ ps)[i]? =
          [(⟨8, 9, 1, 2, 3, 4, 5, 6⟩ : TMatchingPair ℚ)][i]?) ∧
      ∀ j, j < 5 → ∃ p,
        ([⟨8, 9, 1, 2, 3, 4, 5, 6⟩] ++ ps)[
          [(⟨8, 9, 1, 2, 3, 4, 5, 6⟩ : TMatchingPair ℚ)].length + j]? = some p ∧
        p.this_idx = j ∧ p.other_idx = j ∧
        (rd doubleA j 0).map (roundBinary 24) = some p.this_x ∧
        (rd doubleA j 1).map (roundBinary 24) = some p.this_y ∧
        (rd doubleA j 2).map (roundBinary 24) = some p.this_z ∧
        (rd doubleB j 0).map (roundBinary 24) = some p.other_x ∧
        (rd doubleB j 1).map (roundBinary 24) = some p.other_y ∧
        (rd doubleB j 2).map (roundBinary 24) = some p.other_z :=
  ⟨fivePoints_doubleA, fivePoints_doubleB,
    generate_list_of_points_appends (roundBinary 24) doubleA doubleB
      [⟨8, 9, 1, 2, 3, 4, 5, 6⟩] fivePoints_doubleA fivePoints_doubleB⟩

/-! ## The benchmark registry -/

/-- Claim C6: for every prior content of `lstTests`, after `register_tests_scan_matching` the
registry is the prior content followed by exactly three entries, in the order
`[CPose3D]` with `scan_matching_test_1`, `[CPose3DQuat]` with `scan_matching_test_2`,
`[vector of points]` with `scan_matching_test_3`; the three names are pairwise distinct and
the prior entries are neither removed, changed nor reordered. -/
theorem register_tests_scan_matching_appends (lstTests : List TestData) :
    register_tests_scan_matching lstTests = lstTests ++
      [⟨"scan_matching: 6D LS Rigid Trans. [CPose3D]", TestFunctor.scan_matching_test_1⟩,
       ⟨"scan_matching: 6D LS Rigid Trans. [CPose3DQuat]", TestFunctor.scan_matching_test_2⟩,
       ⟨"scan_matching: 6D LS Rigid Trans. [vector of points]",
         TestFunctor.scan_matching_test_3⟩] ∧
    (register_tests_scan_matching lstTests).length = lstTests.length + 3 ∧
    (register_tests_scan_matching lstTests).take lstTests.length = lstTests ∧
    (((register_tests_scan_matching lstTests).drop lstTests.length).map TestData.name).Nodup := by
  have h : register_tests_scan_matching lstTests = lstTests ++
      [⟨"scan_matching: 6D LS Rigid Trans. [CPose3D]", TestFunctor.scan_matching_test_1⟩,
       ⟨"scan_matching: 6D LS Rigid Trans. [CPose3DQuat]", TestFunctor.scan_matching_test_2⟩,
       ⟨"scan_matching: 6D LS Rigid Trans. [vector of points]",
         TestFunctor.scan_matching_test_3⟩] := by
    simp [register_tests_scan_matching]
  refine ⟨h, ?_, ?_, ?_⟩
  · simp [h]
  · rw [h, List.take_left]
  · rw [h, List.drop_left]
    decide

end ScanMatching

namespace DifOdometry

/-! ## Argument parsing in `main` -/

/-- The loop over a concatenation of index lists runs the two loops in sequence. -/
theorem argLoop_append (argv : List String) (l1 l2 : List Nat) (st : ArgState) :
    argLoop argv (l1 ++ l2) st =
      match argLoop argv l1 st with
      | Run.ok st1 => argLoop argv l2 st1
      | Run.ub t => Run.ub t := by
  induction l1 generalizing st with
  | nil => simp [argLoop]
  | cons i rest ih =>
    simp only [List.cons_append, argLoop]
    cases argBody argv st i with
    | ok st1 => exact ih st1
    | ub t => rfl

/-- One round of the argument loop keeps the invariant, when a `--config` in that round is
followed by another argument. -/
theorem argBody_inv (argv : List String) (m : Nat) (st : ArgState)
    (hm : m + 1 < argv.length)
    (h3 : argv[m+1]? = some "--config" → m + 2 < argv.length)
    (hinv : ArgInv argv m st) :
    ∃ st1, argBody argv st (m+1) = Run.ok st1 ∧ ArgInv argv (m+1) st1 := by
  obtain ⟨hl, hf, ht⟩ := hinv
  have ha : argv[m+1]? = some argv[m+1] := List.getElem?_eq_getElem hm
  by_cases hc : argv[m+1] = "--config"
  · have h2 := h3 (by rw [ha, hc])
    have hb : argv[m+1+1]? = some argv[m+2] := List.getElem?_eq_getElem h2
    refine ⟨_, by simp [argBody, ha, hb, hc]; rfl, ?_, ?_, ?_⟩
    · simp [List.filter_append, hl, Event.isLoad]
    · simp
    · intro _
      refine ⟨m+1, by omega, le_refl _, by rw [ha, hc], ?_, by simp [hb]⟩
      intro j h1 h2
      omega
  · have hne : argv[m+1]? ≠ some "--config" := by
      rw [ha]; simpa using hc
    by_cases hs : argv[m+1] = "--save-logfile"
    all_goals
      refine ⟨_, by simp [argBody, ha, hc, hs]; rfl, ?_, ?_, ?_⟩
      · simp [List.filter_append, hl, Event.isLoad]
      · intro hu i h1 h2
        rcases Nat.lt_or_ge i (m+1) with h | h
        · exact hf (by simpa using hu) i h1 (by omega)
        · have : i = m+1 := by omega
          subst this
          exact hne
      · intro hu
        obtain ⟨i, h1, h2, h4, h5, h6⟩ := ht (by simpa using hu)
        refine ⟨i, h1, by omega, h4, ?_, by simpa using h6⟩
        intro j hj1 hj2
        rcases Nat.lt_or_ge j (m+1) with h | h
        · exact h5 j hj1 (by omega)
        · have : j = m+1 := by omega
          subst this
          exact hne


/-- The argument loop establishes the invariant, when every `--config` is followed by
another argument. -/
theorem argLoop_inv (argv : List String)
    (h3 : ∀ i, 1 ≤ i → i < argv.length → argv[i]? = some "--config" → i + 1 < argv.length)
    (st0 : ArgState) (h0 : st0.trace.filter Event.isLoad = [])
    (hu : st0.use_config_file = false) (m : Nat) (hm : m < argv.length) :
    ∃ st, argLoop argv (List.range' 1 m) st0 = Run.ok st ∧ ArgInv argv m st := by
  induction m with
  | zero =>
    refine ⟨st0, rfl, h0, ?_, ?_⟩
    · intro _ i h1 h2
      omega
    · intro h
      rw [hu] at h
      cases h
  | succ m ih =>
    obtain ⟨st, hst, hinv⟩ := ih (by omega)
    obtain ⟨st1, hb, hinv1⟩ := argBody_inv argv m st hm
      (fun h => h3 (m+1) (by omega) hm h) hinv
    refine ⟨st1, ?_, hinv1⟩
    rw [List.range'_concat, argLoop_append, hst]
    simp only [Nat.one_mul, argLoop]
    rw [Nat.add_comm 1 m, hb]

/-- Claim C7, as stated, fails: with the arguments `DifOdometry-Camera --create-config ""`
(`num_arg = 3`, `argv[1] = "--create-config"`) on a file system that cannot open the empty
name, `main` returns 1 but has written no file: the stream does not open and the source never
tests it. -/
theorem main_create_config_unopened :
    3 ≤ ["DifOdometry-Camera", "--create-config", ""].length ∧
    ["DifOdometry-Camera", "--create-config", ""][1]? = some "--create-config" ∧
    ["DifOdometry-Camera", "--create-config", ""][2]? = some "" ∧
    (main sampleFileSystem ["DifOdometry-Camera", "--create-config", ""]).exit =
      Exit.returned 1 ∧
    fileWrites (main sampleFileSystem ["DifOdometry-Camera", "--create-config", ""]).trace =
      [] ∧
    fileWrites (main sampleFileSystem ["DifOdometry-Camera", "--create-config", ""]).trace ≠
      [("", default_cfg_txt)] := by
  decide

/-- Claim C7, amended: for every file system and every argument vector with `num_arg >= 3`
and `argv[1] = "--create-config"`, `main` opens the file named `argv[2]` for writing and no
other; if it opens, `main` writes to it exactly the text `default_cfg_txt` and nothing else,
and if it does not open, nothing is written; in both cases `main` returns 1 and performs none
of the initial steps (loading a configuration, initializing the scene, opening the camera)
nor enters the main operation; likewise `argv[1] = "--help"` returns 1 without any of those
steps (and opens no file). -/
theorem main_create_config_or_help (canOpen : String → Bool) (argv : List String)
    (h : argv[1]? = some "--help" ∨
      (3 ≤ argv.length ∧ argv[1]? = some "--create-config")) :
    (main canOpen argv).exit = Exit.returned 1 ∧
    (main canOpen argv).trace.filter Event.isInitialStep = [] ∧
    ((argv[1]? = some "--help" ∧ fileOpens (main canOpen argv).trace = [] ∧
        fileWrites (main canOpen argv).trace = []) ∨
     (argv[1]? = some "--create-config" ∧ ∃ filename, argv[2]? = some filename ∧
        fileOpens (main canOpen argv).trace = [filename] ∧
        fileWrites (main canOpen argv).trace =
          if canOpen filename then [(filename, default_cfg_txt)] else [])) := by
  rcases h with h | ⟨hlen, h⟩
  · match argv, h with
    | a0 :: a1 :: rest, h =>
      simp at h
      subst h
      have hn : ¬ (rest.length + 1 + 1 < 2) := by omega
      simp [main, fileWrites, fileOpens, Event.isInitialStep, hn, List.filter]
  · match argv, hlen, h with
    | a0 :: a1 :: a2 :: rest, _, h =>
      simp at h
      subst h
      have hn : ¬ (rest.length + 1 + 1 + 1 < 2) := by omega
      cases hopen : canOpen a2 <;>
        simp [main, fileWrites, fileOpens, Event.isInitialStep, hn, List.filter, hopen]

/-- Claim C7, amended, at `--create-config FICH.txt` on the sample file system, where
`FICH.txt` opens and receives the text. -/
theorem main_create_config_or_help_witness :
    (main sampleFileSystem ["DifOdometry-Camera", "--create-config", "FICH.txt"]).exit =
      Exit.returned 1 ∧
    fileWrites (main sampleFileSystem
      ["DifOdometry-Camera", "--create-config", "FICH.txt"]).trace =
      [("FICH.txt", default_cfg_txt)] := by
  have h := main_create_config_or_help sampleFileSystem
    ["DifOdometry-Camera", "--create-config", "FICH.txt"] (Or.inr ⟨by decide, by decide⟩)
  refine ⟨h.1, ?_⟩
  rcases h.2.2 with ⟨hhelp, -⟩ | ⟨-, filename, hname, -, hw⟩
  · exact absurd hhelp (by decide)
  · have hf : filename = "FICH.txt" := by
      have h2 : ["DifOdometry-Camera", "--create-config", "FICH.txt"][2]? =
          some "FICH.txt" := by decide
      rw [h2] at hname
      exact (Option.some.inj hname).symm
    subst hf
    rw [hw]
    rfl

/-- Claim C8: for every argument vector whose `argv[1]` is neither `--help` nor
`--create-config` and in which every `--config` at a position `1 <= i < num_arg` is followed
by another argument, `main` reaches the main operation having loaded exactly one
configuration; it is loaded from a file iff some `argv[i]`, `1 <= i < num_arg`, equals
`--config`, the file name then being `argv[i+1]` for the last such `i`; otherwise (also when
`num_arg < 2`) it is loaded from the built-in `default_cfg_txt`. -/
theorem main_config (canOpen : String → Bool) (argv : List String)
    (h1 : argv[1]? ≠ some "--help") (h2 : argv[1]? ≠ some "--create-config")
    (h3 : ∀ i, 1 ≤ i → i < argv.length → argv[i]? = some "--config" → i + 1 < argv.length) :
    (main canOpen argv).exit = Exit.mainOperation ∧
    ((∃ name, (main canOpen argv).trace.filter Event.isLoad = [Event.loadConfigFile name]) ↔
      ∃ i, 1 ≤ i ∧ i < argv.length ∧ argv[i]? = some "--config") ∧
    (∀ i, 1 ≤ i → i < argv.length → argv[i]? = some "--config" →
      (∀ j, i < j → j < argv.length → argv[j]? ≠ some "--config") →
      ∃ name, argv[i+1]? = some name ∧
        (main canOpen argv).trace.filter Event.isLoad = [Event.loadConfigFile name]) ∧
    ((¬ ∃ i, 1 ≤ i ∧ i < argv.length ∧ argv[i]? = some "--config") →
      (main canOpen argv).trace.filter Event.isLoad = [Event.loadConfigMemory default_cfg_txt]) := by
  -- the state in which the "Initial steps" start
  have key : ∃ st, main canOpen argv = initialSteps st ∧ ArgInv argv (argv.length - 1) st := by
    rcases Nat.lt_or_ge argv.length 2 with hlen | hlen
    · refine ⟨_, by simp [main, hlen]; rfl, by simp [Event.isLoad], ?_, by simp⟩
      intro _ i hi1 hi2
      omega
    · have ha : argv[1]? = some argv[1] := List.getElem?_eq_getElem (by omega)
      have hh : argv[1] ≠ "--help" := fun h => h1 (by rw [ha, h])
      have hc : argv[1] ≠ "--create-config" := fun h => h2 (by rw [ha, h])
      obtain ⟨st, hst, hinv⟩ := argLoop_inv argv h3
        { trace := [Event.constructOdo, Event.readArg 1, Event.readArg 1],
          save_results := false, use_config_file := false, filename := "" }
        (by simp [Event.isLoad]) rfl (argv.length - 1) (by omega)
      refine ⟨st, ?_, hinv⟩
      simp [main, Nat.not_lt.mpr hlen, ha, hh, hc, hst]
  obtain ⟨st, hmain, hl, hf, ht⟩ := key
  have hloads : (main canOpen argv).trace.filter Event.isLoad =
      [if st.use_config_file = false then Event.loadConfigMemory default_cfg_txt
        else Event.loadConfigFile st.filename] := by
    rw [hmain]
    simp only [initialSteps, List.filter_append, hl, List.nil_append]
    split <;> simp [List.filter, Event.isLoad]
  have hiff : st.use_config_file = true ↔
      ∃ i, 1 ≤ i ∧ i < argv.length ∧ argv[i]? = some "--config" := by
    constructor
    · intro hu
      obtain ⟨i, hi1, hi2, hi3, -, -⟩ := ht hu
      exact ⟨i, hi1, by omega, hi3⟩
    · rintro ⟨i, hi1, hi2, hi3⟩
      by_contra hu
      exact hf (by simpa using hu) i hi1 (by omega) hi3
  refine ⟨by rw [hmain]; rfl, ?_, ?_, ?_⟩
  · rw [← hiff, hloads]
    cases hu : st.use_config_file <;> simp
  · intro i hi1 hi2 hi3 hlast
    have hu : st.use_config_file = true := hiff.mpr ⟨i, hi1, hi2, hi3⟩
    obtain ⟨k, hk1, hk2, hk3, hk4, hk5⟩ := ht hu
    have hik : i = k := by
      rcases Nat.lt_trichotomy i k with h | h | h
      · exact absurd hk3 (hlast k h (by omega))
      · exact h
      · exact absurd hi3 (hk4 i h (by omega))
    subst hik
    exact ⟨st.filename, hk5, by rw [hloads]; simp [hu]⟩
  · intro hno
    have hu : st.use_config_file = false := by
      cases hu : st.use_config_file
      · rfl
      · exact absurd (hiff.mp hu) hno
    rw [hloads]; simp [hu]

/-- Claim C8 at `--save-logfile --config --config FICH.txt`: both `--config` are followed by
an argument, the last one is at position 3, and the configuration is loaded from `FICH.txt`. -/
theorem main_config_witness :
    (main sampleFileSystem ["DifOdometry-Camera", "--save-logfile", "--config", "--config", "FICH.txt"]).exit =
      Exit.mainOperation ∧
    (main sampleFileSystem ["DifOdometry-Camera", "--save-logfile", "--config", "--config",
      "FICH.txt"]).trace.filter Event.isLoad = [Event.loadConfigFile "FICH.txt"] := by
  have h3 : ∀ i, 1 ≤ i →
      i < ["DifOdometry-Camera", "--save-logfile", "--config", "--config", "FICH.txt"].length →
      ["DifOdometry-Camera", "--save-logfile", "--config", "--config", "FICH.txt"][i]? =
        some "--config" →
      i + 1 < ["DifOdometry-Camera", "--save-logfile", "--config", "--config",
        "FICH.txt"].length := by
    intro i hi1 hi2 hi3
    simp only [List.length_cons, List.length_nil] at hi2 ⊢
    interval_cases i <;> simp_all
  have h := main_config sampleFileSystem
    ["DifOdometry-Camera", "--save-logfile", "--config", "--config", "FICH.txt"]
    (by decide) (by decide) h3
  refine ⟨h.1, ?_⟩
  obtain ⟨name, hname, hload⟩ := h.2.2.1 3 (by decide) (by decide) (by decide) (by
    intro j hj1 hj2
    simp only [List.length_cons, List.length_nil] at hj2
    interval_cases j
    decide)
  have hn : name = "FICH.txt" := by
    have h4 : ["DifOdometry-Camera", "--save-logfile", "--config", "--config",
        "FICH.txt"][3 + 1]? = some "FICH.txt" := by decide
    rw [h4] at hname
    exact (Option.some.inj hname).symm
  rw [hload, hn]

/-- Claim C9 fails on the code: with the arguments `DifOdometry-Camera --config`
(`num_arg = 2`) `main` reads `argv[2]`, the null pointer that ends the argument vector, as a
string. -/
theorem main_reads_past_arguments (canOpen : String → Bool) :
    main canOpen ["DifOdometry-Camera", "--config"] =
      { trace := [Event.constructOdo, Event.readArg 1, Event.readArg 1, Event.readArg 1,
                  Event.readArg 1, Event.readArg 2],
        exit := Exit.undefined } ∧
    2 ∈ argReads (main canOpen ["DifOdometry-Camera", "--config"]).trace ∧
    ¬ 2 < ["DifOdometry-Camera", "--config"].length := by
  have h : main canOpen ["DifOdometry-Camera", "--config"] =
      { trace := [Event.constructOdo, Event.readArg 1, Event.readArg 1, Event.readArg 1,
                  Event.readArg 1, Event.readArg 2],
        exit := Exit.undefined } := rfl
  rw [h]
  decide

end DifOdometry
